import Mathlib

/-!
Shallow embedding of the CurlyDL segmented downloader and a verification of
its specification.  The definitions below are translated from the Python
sources `src/engine.py`, `src/metadata.py`, `src/filesystem.py`,
`src/error_handler.py` and `src/download_manager.py`; external collaborators
(the HTTP transport, the `hashlib` module, the clock) enter as explicit
parameters or small models, each documented at its definition.
-/

namespace CurlyDL

/-- One planned byte range, both ends inclusive: the dictionary
`{'start': start, 'end': end}` built by `DownloadEngine._create_segments`.
The source key `end` is a Lean keyword, so the field is named `stop`. -/
structure Segment where
  start : Nat
  stop : Nat
  deriving DecidableEq, Repr

/-- Constant `1024 * 1024` (1 MiB) from `engine.py`. -/
def MiB : Nat := 1024 * 1024

/-- Translation of `DownloadEngine._calculate_segment_size`. -/
def calculate_segment_size (total_size : Nat) : Nat :=
  if total_size ≤ MiB then total_size
  else max MiB (total_size / 8)

/-- Translation of `DownloadEngine._create_segments`.  The Python loop
`for start in range(0, total_size, segment_size)` walks the arithmetic
progression `0, segment_size, 2*segment_size, ...` strictly below
`total_size`, which has `(total_size + segment_size - 1) / segment_size`
terms; each iteration appends `{'start': start, 'end': min(start +
segment_size - 1, total_size - 1)}`.  Python `range` raises `ValueError`
when its step is zero, modelled as `none`. -/
def create_segments (total_size segment_size : Nat) : Option (List Segment) :=
  if segment_size = 0 then none
  else some <|
    (List.range' 0 ((total_size + segment_size - 1) / segment_size) segment_size).map
      fun start => { start := start, stop := min (start + segment_size - 1) (total_size - 1) }

/-- Number of loop iterations of `_create_segments`. -/
def seg_count (total_size segment_size : Nat) : Nat :=
  (total_size + segment_size - 1) / segment_size

theorem total_le_seg_count_mul (total sz : Nat) (hsz : 0 < sz) :
    total ≤ seg_count total sz * sz := by
  have e := Nat.div_add_mod (total + sz - 1) sz
  have hr : (total + sz - 1) % sz < sz := Nat.mod_lt _ hsz
  unfold seg_count
  rw [Nat.mul_comm]
  omega

theorem seg_count_pred_mul_lt (total sz : Nat) (hsz : 0 < sz) (ht : 0 < total) :
    (seg_count total sz - 1) * sz < total := by
  have e := Nat.div_add_mod (total + sz - 1) sz
  have hr : (total + sz - 1) % sz < sz := Nat.mod_lt _ hsz
  unfold seg_count
  rw [Nat.sub_one_mul, Nat.mul_comm]
  omega

theorem seg_count_pos (total sz : Nat) (hsz : 0 < sz) (ht : 0 < total) :
    0 < seg_count total sz := by
  by_contra hq
  have h0 : seg_count total sz = 0 := by omega
  have := total_le_seg_count_mul total sz hsz
  rw [h0] at this
  omega

theorem mul_lt_total_of_lt_seg_count (total sz i : Nat) (hsz : 0 < sz) (ht : 0 < total)
    (hi : i < seg_count total sz) : i * sz < total := by
  have h1 : i ≤ seg_count total sz - 1 := by omega
  have h2 : i * sz ≤ (seg_count total sz - 1) * sz := Nat.mul_le_mul_right sz h1
  exact Nat.lt_of_le_of_lt h2 (seg_count_pred_mul_lt total sz hsz ht)

/-- Master correctness lemma for the segmentation plan: for any positive
total size and positive segment size, the planned ranges cover exactly
`[0, total)`, are mutually disjoint and contiguous, and every range except
possibly the last has exactly `segment_size` bytes. -/
theorem create_segments_spec (total sz : Nat) (hsz : 0 < sz) (ht : 0 < total) :
    ∃ segs, create_segments total sz = some segs ∧
      (∀ k, (∃ s ∈ segs, s.start ≤ k ∧ k ≤ s.stop) ↔ k < total) ∧
      List.Pairwise (fun a b => a.stop < b.start) segs ∧
      List.Chain' (fun a b => b.start = a.stop + 1) segs ∧
      (∀ s ∈ segs.dropLast, s.stop + 1 - s.start = sz) := by
  set q := seg_count total sz with hq
  refine ⟨(List.range' 0 q sz).map
      fun start => { start := start, stop := min (start + sz - 1) (total - 1) },
    ?_, ?_, ?_, ?_, ?_⟩
  · unfold create_segments
    rw [if_neg (by omega), hq]
    unfold seg_count
    rfl
  · -- coverage
    intro k
    constructor
    · rintro ⟨s, hs, hks, hke⟩
      rcases List.mem_map.mp hs with ⟨st, hstm, rfl⟩
      rcases List.mem_range'.mp hstm with ⟨i, hi, rfl⟩
      dsimp only at hke
      have : k ≤ total - 1 := le_trans hke (by omega)
      omega
    · intro hk
      refine ⟨{ start := sz * (k / sz), stop := min (sz * (k / sz) + sz - 1) (total - 1) },
        List.mem_map.mpr ⟨sz * (k / sz), List.mem_range'.mpr ⟨k / sz, ?_, by omega⟩, rfl⟩, ?_, ?_⟩
      · -- k / sz < q
        have h1 : total ≤ q * sz := total_le_seg_count_mul total sz hsz
        have h2 : k < q * sz := Nat.lt_of_lt_of_le hk h1
        exact Nat.div_lt_iff_lt_mul hsz |>.mpr h2
      · exact Nat.mul_div_le k sz
      · have e := Nat.div_add_mod k sz
        have hr : k % sz < sz := Nat.mod_lt _ hsz
        dsimp only
        omega
  · -- disjointness
    rw [List.pairwise_iff_getElem]
    intro i j hi hj hij
    rw [List.length_map, List.length_range'] at hi hj
    rw [List.getElem_map, List.getElem_map, List.getElem_range', List.getElem_range']
    dsimp only
    have e1 : sz * j = j * sz := Nat.mul_comm sz j
    have e2 : sz * (i + 1) = sz * i + sz := Nat.mul_succ sz i
    have h3 : sz * (i + 1) ≤ sz * j := Nat.mul_le_mul_left sz (by omega)
    have h4 : j * sz < total := mul_lt_total_of_lt_seg_count total sz j hsz ht hj
    omega
  · -- contiguity
    rw [List.chain'_iff_get]
    intro i hlen
    rw [List.length_map, List.length_range'] at hlen
    rw [List.get_eq_getElem, List.get_eq_getElem, List.getElem_map, List.getElem_map,
      List.getElem_range', List.getElem_range']
    dsimp only
    -- the segment at index i is not the last one, hence its stop is start + sz - 1
    have e2 : sz * (i + 1) = sz * i + sz := Nat.mul_succ sz i
    have e3 : sz * (i + 1) = (i + 1) * sz := Nat.mul_comm sz (i + 1)
    have hnext : (i + 1) * sz < total :=
      mul_lt_total_of_lt_seg_count total sz (i + 1) hsz ht (by omega)
    omega
  · -- all but the last segment have exactly sz bytes
    intro s hs
    rw [List.dropLast_eq_take] at hs
    rcases List.mem_iff_getElem.mp hs with ⟨i, hilen, hgot⟩
    rw [List.length_take, List.length_map, List.length_range'] at hilen
    have hi2 : i < q - 1 := by omega
    rw [List.getElem_take, List.getElem_map, List.getElem_range'] at hgot
    rw [← hgot]
    dsimp only
    have e2 : sz * (i + 1) = sz * i + sz := Nat.mul_succ sz i
    have e3 : sz * (i + 1) = (i + 1) * sz := Nat.mul_comm sz (i + 1)
    have hnext : (i + 1) * sz < total :=
      mul_lt_total_of_lt_seg_count total sz (i + 1) hsz ht (by omega)
    omega

/-- Claim C3: for every `total_size > 1 MiB`, the segmentation plan computed
with segment size `max(1 MiB, total_size / 8)` consists of ranges that are
contiguous, non-overlapping, cover exactly `[0, total_size)`, and every
segment except possibly the last spans at least 1 MiB. -/
theorem segmentation_plan_correct_above_1MiB (total : Nat) (h : MiB < total) :
    ∃ segs, create_segments total (calculate_segment_size total) = some segs ∧
      (∀ k, (∃ s ∈ segs, s.start ≤ k ∧ k ≤ s.stop) ↔ k < total) ∧
      List.Pairwise (fun a b => a.stop < b.start) segs ∧
      List.Chain' (fun a b => b.start = a.stop + 1) segs ∧
      (∀ s ∈ segs.dropLast, MiB ≤ s.stop + 1 - s.start) := by
  have hsz : calculate_segment_size total = max MiB (total / 8) := by
    unfold calculate_segment_size
    rw [if_neg (by omega)]
  have hszpos : 0 < calculate_segment_size total := by
    rw [hsz]
    have : 0 < MiB := by norm_num [MiB]
    omega
  have hMiB : MiB ≤ calculate_segment_size total := by
    rw [hsz]; exact Nat.le_max_left _ _
  obtain ⟨segs, h1, h2, h3, h4, h5⟩ :=
    create_segments_spec total (calculate_segment_size total) hszpos (by omega)
  exact ⟨segs, h1, h2, h3, h4, fun s hs => by rw [h5 s hs]; exact hMiB⟩

/-- Witness for claim C3 at the concrete total size 10 MiB. -/
theorem segmentation_plan_correct_above_1MiB_witness :
    MiB < 10485760 ∧
    (∃ segs, create_segments 10485760 (calculate_segment_size 10485760) = some segs ∧
      (∀ k, (∃ s ∈ segs, s.start ≤ k ∧ k ≤ s.stop) ↔ k < 10485760) ∧
      List.Pairwise (fun a b => a.stop < b.start) segs ∧
      List.Chain' (fun a b => b.start = a.stop + 1) segs ∧
      (∀ s ∈ segs.dropLast, MiB ≤ s.stop + 1 - s.start)) :=
  ⟨by norm_num [MiB], segmentation_plan_correct_above_1MiB 10485760 (by norm_num [MiB])⟩

/-- Counterexample to claim C4 as stated: the claim quantifies over every
`total_size ≤ 1 MiB`, but at `total_size = 0` the code does not produce a
one-segment plan: `_calculate_segment_size(0)` returns `0` and
`range(0, 0, 0)` raises `ValueError` (zero step), so no plan is produced at
all. -/
theorem segmentation_plan_small_counterexample :
    0 ≤ MiB ∧ calculate_segment_size 0 = 0 ∧
      create_segments 0 (calculate_segment_size 0) = none := by
  refine ⟨Nat.zero_le _, rfl, rfl⟩

/-- Claim C4, amended by the counterexample at `total_size = 0`: for every
positive `total_size ≤ 1 MiB`, the segmentation plan is exactly one segment
`[0, total_size - 1]` spanning the whole resource. -/
theorem segmentation_plan_small (total : Nat) (h1 : 0 < total) (h2 : total ≤ MiB) :
    create_segments total (calculate_segment_size total) =
      some [{ start := 0, stop := total - 1 }] := by
  have hc : calculate_segment_size total = total := by
    unfold calculate_segment_size
    rw [if_pos h2]
  rw [hc]
  unfold create_segments
  rw [if_neg (by omega)]
  have hdiv : (total + total - 1) / total = 1 := by
    apply Nat.div_eq_of_lt_le (by omega) (by omega)
  rw [hdiv]
  rw [show List.range' 0 1 total = [0] from rfl]
  simp only [List.map_cons, List.map_nil]
  have hmin : min (0 + total - 1) (total - 1) = total - 1 := by omega
  rw [hmin]

/-- Witness for the amended claim C4 at the concrete total size 500 KiB. -/
theorem segmentation_plan_small_witness :
    0 < 512000 ∧ 512000 ≤ MiB ∧
      create_segments 512000 (calculate_segment_size 512000) =
        some [{ start := 0, stop := 512000 - 1 }] :=
  ⟨by norm_num, by norm_num [MiB], segmentation_plan_small 512000 (by norm_num) (by norm_num [MiB])⟩

/-! ### Metadata manager (`src/metadata.py`) -/

/-- Ledger record for one download: the dictionary created by
`MetadataManager.create_download`.  Timestamps are abstract clock readings
(the caller passes the current time as a `Nat`); `segments` is created empty
by the source and never written afterwards. -/
structure LedgerRecord where
  url : String
  output_path : String
  total_size : Int
  downloaded_bytes : Int
  status : String
  segments : List Segment
  created_at : Nat
  last_updated : Nat
  deriving DecidableEq, Repr

/-- In-memory metadata cache of `MetadataManager` (`_metadata_cache`), keyed
by download id.  Disk persistence mirrors the cache and is best-effort
(`_save_metadata` swallows every error), so the cache is the authoritative
state being modelled. -/
def MetaState : Type := String → Option LedgerRecord

/-- Translation of `MetadataManager.create_download`. -/
def create_download (m : MetaState) (id url out : String) (now : Nat) : MetaState :=
  fun s =>
    if s = id then
      some { url := url, output_path := out, total_size := 0, downloaded_bytes := 0,
             status := "initializing", segments := [], created_at := now, last_updated := now }
    else m s

/-- Translation of `MetadataManager._get_metadata`: an id absent from the
cache (and, in the source, from disk) raises `ValueError`, modelled as
`Except.error`. -/
def get_metadata (m : MetaState) (id : String) : Except String LedgerRecord :=
  match m id with
  | some r => .ok r
  | none => .error ("No metadata found for download " ++ id)

/-- Translation of `MetadataManager.update_total_size`. -/
def update_total_size (m : MetaState) (id : String) (size : Int) (now : Nat) :
    Except String MetaState :=
  match get_metadata m id with
  | .error e => .error e
  | .ok r => .ok fun s =>
      if s = id then some { r with total_size := size, last_updated := now } else m s

/-- Translation of `MetadataManager.update_progress`: adds `end - start + 1`
bytes for a finished range; every error (in particular a missing id) is
swallowed, leaving the state unchanged.  The Python parameter `end` is a
Lean keyword and is called `stop` here. -/
def update_progress (m : MetaState) (id : String) (start stop : Int) (now : Nat) : MetaState :=
  match m id with
  | none => m
  | some r => fun s =>
      if s = id then
        some { r with downloaded_bytes := r.downloaded_bytes + (stop - start + 1),
                      last_updated := now }
      else m s

/-- Progress formula of `MetadataManager.get_progress` on one record; the
Python float arithmetic `min(100.0, downloaded_bytes / total_size * 100)` is
modelled exactly over `ℚ`. -/
def progress_of (r : LedgerRecord) : ℚ :=
  if r.total_size = 0 then 0
  else min 100 ((r.downloaded_bytes : ℚ) / (r.total_size : ℚ) * 100)

/-- Translation of `MetadataManager.get_progress` (raises for unknown ids). -/
def get_progress (m : MetaState) (id : String) : Except String ℚ :=
  match get_metadata m id with
  | .error e => .error e
  | .ok r => .ok (progress_of r)

/-- Translation of `MetadataManager.is_complete`. -/
def is_complete (m : MetaState) (id : String) : Except String Bool :=
  match get_metadata m id with
  | .error e => .error e
  | .ok r => .ok (r.status == "complete")

/-- Translation of `MetadataManager.mark_complete`. -/
def mark_complete (m : MetaState) (id : String) (now : Nat) : Except String MetaState :=
  match get_metadata m id with
  | .error e => .error e
  | .ok r => .ok fun s =>
      if s = id then some { r with status := "complete", last_updated := now } else m s

/-- Claim C6: on a record present in the ledger, `get_progress` returns `0`
while `total_size` is unknown (`0`), otherwise
`min(100, downloaded_bytes / total_size * 100)`, and the result never
exceeds 100 even when `downloaded_bytes` exceeds `total_size`. -/
theorem get_progress_clamped (m : MetaState) (id : String) (r : LedgerRecord)
    (h : m id = some r) :
    get_progress m id = .ok (progress_of r) ∧
    (r.total_size = 0 → progress_of r = 0) ∧
    (r.total_size ≠ 0 →
      progress_of r = min 100 ((r.downloaded_bytes : ℚ) / (r.total_size : ℚ) * 100)) ∧
    progress_of r ≤ 100 := by
  refine ⟨?_, ?_, ?_, ?_⟩
  · unfold get_progress get_metadata
    rw [h]
  · intro h0
    unfold progress_of
    rw [if_pos h0]
  · intro h0
    unfold progress_of
    rw [if_neg h0]
  · unfold progress_of
    split
    · norm_num
    · exact min_le_left _ _

/-- Sample record with double-counted bytes (`downloaded_bytes` exceeds
`total_size`), used by witnesses. -/
def overcounted_record : LedgerRecord :=
  { url := "http://example.com/f", output_path := "out/f", total_size := 10,
    downloaded_bytes := 25, status := "initializing", segments := [],
    created_at := 0, last_updated := 0 }

/-- Metadata cache holding `overcounted_record` under id `"d1"`. -/
def overcounted_meta : MetaState :=
  fun s => if s = "d1" then some overcounted_record else none

/-- Witness for claim C6 on a record whose byte counter overshot its total. -/
theorem get_progress_clamped_witness :
    get_progress overcounted_meta "d1" = .ok (progress_of overcounted_record) ∧
    progress_of overcounted_record ≤ 100 :=
  ⟨(get_progress_clamped overcounted_meta "d1" overcounted_record rfl).1,
   (get_progress_clamped overcounted_meta "d1" overcounted_record rfl).2.2.2⟩

theorem list_sum_finset_sum {α : Type} (l : List α) (n : Nat) (g : α → Nat → Nat) :
    (l.map fun p => ∑ k ∈ Finset.range n, g p k).sum =
      ∑ k ∈ Finset.range n, (l.map fun p => g p k).sum := by
  induction l with
  | nil => simp
  | cons a t ih => simp [ih, Finset.sum_add_distrib]

theorem list_sum_indicator_countP {α : Type} (l : List α) (p : α → Bool) :
    (l.map fun a => if p a then 1 else 0).sum = l.countP p := by
  induction l with
  | nil => simp
  | cons a t ih =>
    simp only [List.map_cons, List.sum_cons, List.countP_cons, ih]
    omega

/-- Key combinatorial fact behind claim C5: if a list of inclusive ranges
partitions `[0, total)` (every point below `total` lies in exactly one
listed range, and every range is valid and stays below `total`), then the
lengths `end - start + 1` sum to exactly `total`. -/
theorem partition_sum (total : Nat) (l : List (Nat × Nat))
    (hvalid : ∀ p ∈ l, p.1 ≤ p.2 ∧ p.2 < total)
    (hcount : ∀ k, k < total → l.countP (fun p => p.1 ≤ k && k ≤ p.2) = 1) :
    (l.map fun p => p.2 - p.1 + 1).sum = total := by
  have step1 : ∀ p ∈ l, p.2 - p.1 + 1 =
      ∑ k ∈ Finset.range total, if (p.1 ≤ k && k ≤ p.2) = true then 1 else 0 := by
    intro p hp
    obtain ⟨h1, h2⟩ := hvalid p hp
    rw [← Finset.card_filter]
    have hfe : (Finset.range total).filter (fun k => (p.1 ≤ k && k ≤ p.2) = true) =
        Finset.Icc p.1 p.2 := by
      ext k
      simp only [Finset.mem_filter, Finset.mem_range, Finset.mem_Icc,
        Bool.and_eq_true, decide_eq_true_eq]
      omega
    rw [hfe, Nat.card_Icc]
    omega
  calc (l.map fun p => p.2 - p.1 + 1).sum
      = (l.map fun p =>
          ∑ k ∈ Finset.range total, if (p.1 ≤ k && k ≤ p.2) = true then 1 else 0).sum := by
        rw [List.map_congr_left step1]
    _ = ∑ k ∈ Finset.range total,
          (l.map fun p => if (p.1 ≤ k && k ≤ p.2) = true then 1 else 0).sum :=
        list_sum_finset_sum l total _
    _ = ∑ k ∈ Finset.range total, l.countP (fun p => p.1 ≤ k && k ≤ p.2) := by
        refine Finset.sum_congr rfl fun k _ => ?_
        exact list_sum_indicator_countP l _
    _ = ∑ _k ∈ Finset.range total, 1 := by
        refine Finset.sum_congr rfl fun k hk => ?_
        exact hcount k (Finset.mem_range.mp hk)
    _ = total := by simp

theorem sum_deltas_cast (l : List (Nat × Nat)) (hvalid : ∀ p ∈ l, p.1 ≤ p.2) :
    (l.map fun p => (p.2 : Int) - (p.1 : Int) + 1).sum =
      ((l.map fun p => p.2 - p.1 + 1).sum : Nat) := by
  induction l with
  | nil => simp
  | cons a t ih =>
    simp only [List.map_cons, List.sum_cons]
    rw [ih fun p hp => hvalid p (List.mem_cons_of_mem a hp)]
    have ha := hvalid a (List.mem_cons_self a t)
    omega

/-- Effect of folding a list of `update_progress` calls for an id present in
the cache: the byte counter accumulates the sum of the reported range
lengths and the total size is untouched. -/
theorem foldl_update_progress (l : List (Nat × Nat)) (id : String) (now : Nat) :
    ∀ (m : MetaState) (r : LedgerRecord), m id = some r →
    ∃ r2,
      (l.foldl (fun acc p => update_progress acc id (p.1 : Int) (p.2 : Int) now) m) id =
        some r2 ∧
      r2.downloaded_bytes =
        r.downloaded_bytes + (l.map fun p => (p.2 : Int) - (p.1 : Int) + 1).sum ∧
      r2.total_size = r.total_size := by
  induction l with
  | nil =>
    intro m r h
    exact ⟨r, h, by simp, rfl⟩
  | cons a t ih =>
    intro m r h
    have hstep : (update_progress m id (a.1 : Int) (a.2 : Int) now) id =
        some { r with downloaded_bytes := r.downloaded_bytes + ((a.2 : Int) - (a.1 : Int) + 1),
                      last_updated := now } := by
      unfold update_progress
      rw [h]
      simp
    obtain ⟨r2, h1, h2, h3⟩ := ih _ _ hstep
    refine ⟨r2, h1, ?_, h3⟩
    simp only [List.map_cons, List.sum_cons]
    simp only at h2
    omega

/-- Claim C5, amended by the counterexample at `total_size = 0`: for every
positive total size and every sequence of `update_progress` calls whose
ranges partition `[0, total_size)` with each range reported exactly once,
the final `downloaded_bytes` equals `total_size` and `get_progress` returns
100. -/
theorem update_progress_partition (m : MetaState) (id : String) (r : LedgerRecord)
    (total : Nat) (l : List (Nat × Nat)) (now : Nat)
    (hm : m id = some r) (hd0 : r.downloaded_bytes = 0) (htot : r.total_size = (total : Int))
    (hpos : 0 < total)
    (hvalid : ∀ p ∈ l, p.1 ≤ p.2 ∧ p.2 < total)
    (hcount : ∀ k, k < total → l.countP (fun p => p.1 ≤ k && k ≤ p.2) = 1) :
    ∃ r2,
      (l.foldl (fun acc p => update_progress acc id (p.1 : Int) (p.2 : Int) now) m) id =
        some r2 ∧
      r2.downloaded_bytes = (total : Int) ∧
      get_progress
        (l.foldl (fun acc p => update_progress acc id (p.1 : Int) (p.2 : Int) now) m) id =
        .ok 100 := by
  obtain ⟨r2, h1, h2, h3⟩ := foldl_update_progress l id now m r hm
  have hsum : (l.map fun p => (p.2 : Int) - (p.1 : Int) + 1).sum = (total : Int) := by
    rw [sum_deltas_cast l fun p hp => (hvalid p hp).1]
    rw [partition_sum total l hvalid hcount]
  have hdb : r2.downloaded_bytes = (total : Int) := by rw [h2, hd0, hsum]; ring
  refine ⟨r2, h1, hdb, ?_⟩
  unfold get_progress get_metadata
  rw [h1]
  have htot2 : r2.total_size = (total : Int) := by rw [h3, htot]
  have hne : r2.total_size ≠ 0 := by
    rw [htot2]
    exact_mod_cast Nat.pos_iff_ne_zero.mp hpos
  have hp : progress_of r2 = 100 := by
    unfold progress_of
    rw [if_neg hne, hdb, htot2]
    rw [div_self (by exact_mod_cast Nat.pos_iff_ne_zero.mp hpos)]
    norm_num
  show Except.ok (progress_of r2) = Except.ok 100
  rw [hp]

/-- Sample fresh record with total size 3, used by the C5 witness. -/
def fresh_record_three : LedgerRecord :=
  { url := "http://example.com/f", output_path := "out/f", total_size := 3,
    downloaded_bytes := 0, status := "initializing", segments := [],
    created_at := 0, last_updated := 0 }

/-- Metadata cache holding `fresh_record_three` under id `"d1"`. -/
def fresh_meta_three : MetaState :=
  fun s => if s = "d1" then some fresh_record_three else none

/-- Witness for the amended claim C5: the two ranges `[1,2]` and `[0,0]`
partition `[0,3)` and drive the record to 3 downloaded bytes and progress
100. -/
theorem update_progress_partition_witness :
    ∃ r2,
      (([(1, 2), (0, 0)] : List (Nat × Nat)).foldl
        (fun acc p => update_progress acc "d1" (p.1 : Int) (p.2 : Int) 7) fresh_meta_three) "d1" =
        some r2 ∧
      r2.downloaded_bytes = ((3 : Nat) : Int) ∧
      get_progress
        (([(1, 2), (0, 0)] : List (Nat × Nat)).foldl
          (fun acc p => update_progress acc "d1" (p.1 : Int) (p.2 : Int) 7) fresh_meta_three) "d1" =
        .ok 100 :=
  update_progress_partition fresh_meta_three "d1" fresh_record_three 3 [(1, 2), (0, 0)] 7
    rfl rfl rfl (by norm_num) (by decide) (by decide)

/-- Sample record whose total size is still unknown (0), used by the C5
counterexample. -/
def fresh_record_zero : LedgerRecord :=
  { url := "http://example.com/f", output_path := "out/f", total_size := 0,
    downloaded_bytes := 0, status := "initializing", segments := [],
    created_at := 0, last_updated := 0 }

/-- Metadata cache holding `fresh_record_zero` under id `"d1"`. -/
def fresh_meta_zero : MetaState :=
  fun s => if s = "d1" then some fresh_record_zero else none

/-- Counterexample to claim C5 as stated: with `total_size = 0` the empty
call sequence vacuously partitions `[0, 0)` with each range reported exactly
once, and the final `downloaded_bytes` (0) does equal `total_size`, but
`get_progress` returns 0, not 100 (the code reports 0 whenever
`total_size == 0`). -/
theorem update_progress_partition_counterexample :
    (∀ p, p ∈ ([] : List (Nat × Nat)) → p.1 ≤ p.2 ∧ p.2 < 0) ∧
    (∀ k, k < 0 → ([] : List (Nat × Nat)).countP (fun p => p.1 ≤ k && k ≤ p.2) = 1) ∧
    (([] : List (Nat × Nat)).foldl
      (fun acc p => update_progress acc "d1" (p.1 : Int) (p.2 : Int) 7) fresh_meta_zero) "d1" =
      some fresh_record_zero ∧
    get_progress
      (([] : List (Nat × Nat)).foldl
        (fun acc p => update_progress acc "d1" (p.1 : Int) (p.2 : Int) 7) fresh_meta_zero) "d1" =
      .ok 0 ∧
    (Except.ok (0 : ℚ) : Except String ℚ) ≠ .ok 100 := by
  refine ⟨by simp, by omega, rfl, ?_, by simp⟩
  rfl

/-! ### Error handler (`src/error_handler.py`) -/

/-- Trace of one `ErrorHandler.retry_with_backoff` run.  `outcome` is
`Except.error e` when the loop exhausts every attempt and re-raises the last
error, `Except.ok (some a)` when some attempt returns `a`, and
`Except.ok none` for the Python `None` fall-through when `max_retries = 0`
(the loop body never runs and `last_error` stays `None`).  `calls` counts
invocations of the wrapped operation; `sleeps` lists the waits in seconds
performed after failing attempts, in order. -/
structure RetryTrace (E A : Type) where
  outcome : Except E (Option A)
  calls : Nat
  sleeps : List Nat

/-- Loop of `ErrorHandler.retry_with_backoff`: `attempt` runs over
`range(max_retries)` and `remaining = max_retries - attempt` counts the
iterations left, driving the structural recursion.  The wrapped operation is
modelled as a function from the zero-based attempt number to that attempt's
result; after a failure at any attempt but the last, the loop sleeps
`2 ** attempt + 1` seconds. -/
def retry_go {E A : Type} (op : Nat → Except E A) (max_retries : Nat) :
    Nat → Nat → Option E → RetryTrace E A
  | _attempt, 0, last_error =>
    { outcome :=
        match last_error with
        | some e => .error e
        | none => .ok none,
      calls := 0, sleeps := [] }
  | attempt, remaining + 1, _last_error =>
    match op attempt with
    | .ok a => { outcome := .ok (some a), calls := 1, sleeps := [] }
    | .error e =>
      let t := retry_go op max_retries (attempt + 1) remaining (some e)
      if attempt < max_retries - 1 then
        { outcome := t.outcome, calls := t.calls + 1, sleeps := (2 ^ attempt + 1) :: t.sleeps }
      else
        { outcome := t.outcome, calls := t.calls + 1, sleeps := t.sleeps }

/-- Translation of `ErrorHandler.retry_with_backoff`. -/
def retry_with_backoff {E A : Type} (op : Nat → Except E A) (max_retries : Nat) :
    RetryTrace E A :=
  retry_go op max_retries 0 max_retries none

theorem retry_go_calls_le {E A : Type} (op : Nat → Except E A) (m : Nat) :
    ∀ (rem att : Nat) (le : Option E), (retry_go op m att rem le).calls ≤ rem := by
  intro rem
  induction rem with
  | zero => intro att le; rfl
  | succ r ih =>
    intro att le
    unfold retry_go
    match h : op att with
    | .ok a => simp
    | .error e =>
      simp only
      split
      · exact Nat.succ_le_succ (ih (att + 1) (some e))
      · exact Nat.succ_le_succ (ih (att + 1) (some e))

theorem retry_go_all_fail {E A : Type} (op : Nat → Except E A) (m : Nat) :
    ∀ (rem att : Nat) (le : Option E), att + rem = m → 1 ≤ rem →
    (∀ i, att ≤ i → i < m → ∃ e, op i = .error e) →
    ∃ e, op (m - 1) = .error e ∧
      retry_go op m att rem le =
        { outcome := .error e, calls := rem,
          sleeps := (List.range' att (rem - 1)).map fun i => 2 ^ i + 1 } := by
  intro rem
  induction rem with
  | zero => intro att le _ h1; omega
  | succ r ih =>
    intro att le hsum _h1 hf
    rcases Nat.eq_zero_or_pos r with hr | hr
    · -- last attempt: att = m - 1
      subst hr
      obtain ⟨e, he⟩ := hf att (le_refl att) (by omega)
      refine ⟨e, by rw [show m - 1 = att by omega]; exact he, ?_⟩
      unfold retry_go
      rw [he]
      simp only
      rw [if_neg (by omega)]
      rfl
    · obtain ⟨e0, he0⟩ := hf att (le_refl att) (by omega)
      obtain ⟨e, he, ht⟩ := ih (att + 1) (some e0) (by omega) hr
        (fun i hi1 hi2 => hf i (by omega) hi2)
      refine ⟨e, he, ?_⟩
      unfold retry_go
      rw [he0]
      simp only
      rw [if_pos (by omega), ht]
      have hrange : List.range' att (r + 1 - 1) = att :: List.range' (att + 1) (r - 1) := by
        rw [show r + 1 - 1 = (r - 1) + 1 by omega]
        rfl
      rw [hrange]
      rfl

theorem retry_go_first_success {E A : Type} (op : Nat → Except E A) (m j : Nat) (a : A) :
    ∀ (rem att : Nat) (le : Option E), att + rem = m → att ≤ j → j < m →
    (∀ i, att ≤ i → i < j → ∃ e, op i = .error e) → op j = .ok a →
    retry_go op m att rem le =
      { outcome := .ok (some a), calls := j + 1 - att,
        sleeps := (List.range' att (j - att)).map fun i => 2 ^ i + 1 } := by
  intro rem
  induction rem with
  | zero => intro att le hsum h1 h2; omega
  | succ r ih =>
    intro att le hsum hle hjm hf hok
    rcases Nat.lt_or_ge att j with hlt | hge
    · obtain ⟨e0, he0⟩ := hf att (le_refl att) hlt
      have ht := ih (att + 1) (some e0) (by omega) (by omega) hjm
        (fun i hi1 hi2 => hf i (by omega) hi2) hok
      unfold retry_go
      rw [he0]
      simp only
      rw [if_pos (by omega), ht]
      have hrange : List.range' att (j - att) = att :: List.range' (att + 1) (j - att - 1) := by
        rw [show j - att = (j - att - 1) + 1 by omega]
        rfl
      rw [hrange]
      have hc : j + 1 - (att + 1) + 1 = j + 1 - att := by omega
      rw [show j - (att + 1) = j - att - 1 by omega]
      rw [List.map_cons, hc]
    · have hja : att = j := by omega
      subst hja
      unfold retry_go
      rw [hok]
      simp only
      rw [show att + 1 - att = 1 by omega, show att - att = 0 by omega]
      rfl

/-- Claim C9: for `max_retries ≥ 1`, `retry_with_backoff` calls the wrapped
operation at most `max_retries` times and returns the first successful
result after `j + 1` calls when attempt `j` is the first to succeed; when
every attempt fails, it makes exactly `max_retries` calls, sleeps
`2 ^ attempt + 1` seconds after every failing attempt except the final one,
and re-raises the error of the final attempt. -/
theorem retry_with_backoff_spec {E A : Type} (op : Nat → Except E A) (m : Nat) (hm : 1 ≤ m) :
    (retry_with_backoff op m).calls ≤ m ∧
    (∀ j a, j < m → (∀ i, i < j → ∃ e, op i = .error e) → op j = .ok a →
      (retry_with_backoff op m).outcome = .ok (some a) ∧
      (retry_with_backoff op m).calls = j + 1) ∧
    ((∀ i, i < m → ∃ e, op i = .error e) →
      ∃ e, op (m - 1) = .error e ∧
        (retry_with_backoff op m).outcome = .error e ∧
        (retry_with_backoff op m).calls = m ∧
        (retry_with_backoff op m).sleeps = (List.range (m - 1)).map fun i => 2 ^ i + 1) := by
  refine ⟨retry_go_calls_le op m m 0 none, ?_, ?_⟩
  · intro j a hj hf hok
    have h := retry_go_first_success op m j a m 0 none (by omega) (by omega) hj
      (fun i _ hi2 => hf i hi2) hok
    unfold retry_with_backoff
    rw [h]
    exact ⟨rfl, by simp⟩
  · intro hf
    obtain ⟨e, he, ht⟩ := retry_go_all_fail op m m 0 none (by omega) hm
      (fun i _ hi2 => hf i hi2)
    refine ⟨e, he, ?_, ?_, ?_⟩
    · unfold retry_with_backoff
      rw [ht]
    · unfold retry_with_backoff
      rw [ht]
    · unfold retry_with_backoff
      rw [ht, List.range_eq_range']

/-- Sample operation for the C9 witness: attempts 0 fails, attempt 1
returns 42. -/
def retry_sample_op : Nat → Except String Nat :=
  fun i => if i = 1 then .ok 42 else .error "boom"

/-- Witness for claim C9: with three allowed attempts and a first success at
attempt 1, the wrapped operation is called exactly twice and its result is
returned. -/
theorem retry_with_backoff_spec_witness :
    (retry_with_backoff retry_sample_op 3).calls ≤ 3 ∧
    (retry_with_backoff retry_sample_op 3).outcome = .ok (some 42) ∧
    (retry_with_backoff retry_sample_op 3).calls = 2 :=
  ⟨(retry_with_backoff_spec retry_sample_op 3 (by norm_num)).1,
   ((retry_with_backoff_spec retry_sample_op 3 (by norm_num)).2.1 1 42 (by norm_num)
     (fun i hi => by interval_cases i; exact ⟨"boom", rfl⟩) rfl).1,
   ((retry_with_backoff_spec retry_sample_op 3 (by norm_num)).2.1 1 42 (by norm_num)
     (fun i hi => by interval_cases i; exact ⟨"boom", rfl⟩) rfl).2⟩

/-! ### File system manager (`src/filesystem.py`) -/

/-- Characters that can occur in a lowercase hexadecimal digest. -/
def is_lower_hex_char (c : Char) : Bool :=
  (48 ≤ c.toNat && c.toNat ≤ 57) || (97 ≤ c.toNat && c.toNat ≤ 102)

/-- Strings made of lowercase hexadecimal characters, the alphabet of
`hexdigest()` outputs. -/
def is_lower_hex (s : String) : Bool := s.data.all is_lower_hex_char

theorem char_toLower_eq_of_not_upper (c : Char) (h : ¬(65 ≤ c.toNat ∧ c.toNat ≤ 90)) :
    c.toLower = c := by
  simp only [Char.toLower]
  rw [if_neg]
  omega

theorem map_toLower_of_lower_hex (l : List Char) (h : l.all is_lower_hex_char = true) :
    l.map Char.toLower = l := by
  induction l with
  | nil => rfl
  | cons c t ih =>
    rw [List.all_cons, Bool.and_eq_true] at h
    have hc : ¬(65 ≤ c.toNat ∧ c.toNat ≤ 90) := by
      have := h.1
      simp only [is_lower_hex_char, Bool.or_eq_true, Bool.and_eq_true,
        decide_eq_true_eq] at this
      omega
    rw [List.map_cons, ih h.2, char_toLower_eq_of_not_upper c hc]

theorem string_toLower_data (s : String) : s.toLower = ⟨s.data.map Char.toLower⟩ := by
  rw [String.toLower, String.map_eq]

theorem string_toLower_of_lower_hex (s : String) (h : is_lower_hex s = true) :
    s.toLower = s := by
  rw [string_toLower_data, map_toLower_of_lower_hex s.data h]

/-- Category of a name looked up on Python's `hashlib` module, the external
hash collaborator of `FileSystemManager.verify_checksum`.  The stdlib
guarantees the zero-argument constructors listed in
`hashlib_guaranteed_constructors`; `shake_128`/`shake_256` construct with no
arguments but their `hexdigest()` requires a length argument; the module
also exposes attributes that are not zero-argument hash constructors at all
(functions such as `new` and `pbkdf2_hmac`, and the `algorithms_*` sets),
for which `getattr` succeeds but calling the attribute with no arguments
raises `TypeError`. -/
inductive HashlibAttr where
  | constructor
  | shake
  | non_constructor
  deriving DecidableEq, Repr

/-- Zero-argument hash constructors guaranteed by Python's `hashlib`. -/
def hashlib_guaranteed_constructors : List String :=
  ["md5", "sha1", "sha224", "sha256", "sha384", "sha512",
   "sha3_224", "sha3_256", "sha3_384", "sha3_512", "blake2b", "blake2s"]

/-- Constructors whose `hexdigest` requires a length argument. -/
def hashlib_shake_constructors : List String := ["shake_128", "shake_256"]

/-- Module attributes of `hashlib` that are not zero-argument hash
constructors. -/
def hashlib_non_constructor_attrs : List String :=
  ["new", "pbkdf2_hmac", "compare_digest", "file_digest",
   "algorithms_guaranteed", "algorithms_available"]

/-- Model of `getattr(hashlib, name)`: `none` is an `AttributeError`. -/
def hashlib_attr (name : String) : Option HashlibAttr :=
  if name ∈ hashlib_guaranteed_constructors then some .constructor
  else if name ∈ hashlib_shake_constructors then some .shake
  else if name ∈ hashlib_non_constructor_attrs then some .non_constructor
  else none

/-- Python exception classes relevant to `verify_checksum`: `ValueError` is
the documented, deliberately raised error; `TypeError` is an uncaught crash
escaping from a no-argument call on a `hashlib` attribute that is not a
zero-argument constructor. -/
inductive PyErr where
  | valueError (msg : String)
  | typeError (msg : String)
  deriving DecidableEq, Repr

/-- State of `FileSystemManager`: the per-download scratch directories that
currently exist under `downloads_temp`, the open per-download segment file
handles (`_segment_files`), and the `_output_paths` mapping. -/
structure FSState where
  scratch_dirs : List String
  open_segment_files : List String
  output_paths : String → Option String

/-- Translation of `FileSystemManager.prepare_download`: creates the
per-download scratch directory (`mkdir(exist_ok=True)`), records the output
path, and opens the segment data file. -/
def prepare_download (fs : FSState) (id out : String) : FSState :=
  { scratch_dirs := if id ∈ fs.scratch_dirs then fs.scratch_dirs else id :: fs.scratch_dirs,
    open_segment_files :=
      if id ∈ fs.open_segment_files then fs.open_segment_files else id :: fs.open_segment_files,
    output_paths := fun s => if s = id then some out else fs.output_paths s }

/-- Translation of `FileSystemManager.assemble_file`, parameterised by
whether the `shutil.move` to the destination succeeds (`move_ok`).  The
segment file handle is closed first in either case; on success the scratch
directory is removed (best-effort `rmtree`, modelled as succeeding) and the
output path recorded; on failure the wrapped exception propagates. -/
def assemble_file (fs : FSState) (id out : String) (move_ok : Bool) : Except String FSState :=
  let fs1 := { fs with open_segment_files := fs.open_segment_files.erase id }
  if move_ok then
    .ok { fs1 with
      scratch_dirs := fs1.scratch_dirs.erase id,
      output_paths := fun s => if s = id then some out else fs1.output_paths s }
  else .error ("Failed to move file to " ++ out)

/-- Translation of `FileSystemManager.verify_checksum`.  The streaming hash
of the destination file's content is abstracted by the oracle `hexdigest`,
which maps a (lowercased) algorithm name to the hex digest of the file under
that algorithm; `file_exists` abstracts `os.path.exists(output_path)`.
The lookup `getattr(hashlib, algorithm.lower())` and the subsequent call
follow the `hashlib_attr` model: a missing attribute raises
`AttributeError`, which the source converts to `ValueError`; a
non-constructor attribute escapes as an uncaught `TypeError`. -/
def verify_checksum (fs : FSState) (hexdigest : String → String) (file_exists : Bool)
    (id algorithm expected : String) : Except PyErr Bool :=
  match fs.output_paths id with
  | none => .error (.valueError ("No output path found for download " ++ id))
  | some output_path =>
    match hashlib_attr algorithm.toLower with
    | none => .error (.valueError ("Unsupported hash algorithm: " ++ algorithm))
    | some .non_constructor =>
        .error (.typeError "hashlib attribute is not callable without arguments")
    | some .shake =>
        if !file_exists then
          .error (.valueError ("Output file not found: " ++ output_path))
        else .error (.typeError "hexdigest() missing required argument: length")
    | some .constructor =>
        if !file_exists then
          .error (.valueError ("Output file not found: " ++ output_path))
        else .ok ((hexdigest algorithm.toLower).toLower == expected.toLower)

/-- Claim C7: on a finalized download whose file content hashes to digest
`D = hexdigest(algorithm)`, `verify_checksum` returns true exactly when the
expected string equals `D` up to letter case, and returns false for every
lowercase-hex expected string different from `D`. -/
theorem verify_checksum_digest_match (fs : FSState) (hexdigest : String → String)
    (id algorithm expected : String) (p : String)
    (hout : fs.output_paths id = some p)
    (halg : hashlib_attr algorithm.toLower = some .constructor) :
    (verify_checksum fs hexdigest true id algorithm expected = .ok true ↔
      expected.toLower = (hexdigest algorithm.toLower).toLower) ∧
    (is_lower_hex (hexdigest algorithm.toLower) = true → is_lower_hex expected = true →
      expected ≠ hexdigest algorithm.toLower →
      verify_checksum fs hexdigest true id algorithm expected = .ok false) := by
  unfold verify_checksum
  rw [hout, halg]
  simp only [Bool.not_true, Bool.false_eq_true, if_false]
  constructor
  · rw [Except.ok.injEq, beq_iff_eq]
    exact eq_comm
  · intro hD hexp hne
    rw [Except.ok.injEq]
    rw [string_toLower_of_lower_hex _ hD, string_toLower_of_lower_hex _ hexp]
    rw [beq_eq_false_iff_ne]
    exact fun h => hne h.symm

/-- Sample file-system state with a finalized download `"d1"`, used by
witnesses. -/
def sample_fs : FSState :=
  { scratch_dirs := [], open_segment_files := [],
    output_paths := fun s => if s = "d1" then some "out/f" else none }

/-- Sample digest oracle: every algorithm hashes the file to `"ab12"`. -/
def sample_hexdigest : String → String := fun _ => "ab12"

/-- Witness for claim C7: the digest `"ab12"` is accepted when the expected
value differs only in case and rejected when one hex character differs. -/
theorem verify_checksum_digest_match_witness :
    verify_checksum sample_fs sample_hexdigest true "d1" "SHA256" "AB12" = .ok true ∧
    verify_checksum sample_fs sample_hexdigest true "d1" "SHA256" "ab13" = .ok false :=
  ⟨(verify_checksum_digest_match sample_fs sample_hexdigest "d1" "SHA256" "AB12" "out/f" rfl
      (by rw [string_toLower_data]; decide)).1.mpr
      (by rw [string_toLower_data, string_toLower_data]; decide),
   (verify_checksum_digest_match sample_fs sample_hexdigest "d1" "SHA256" "ab13" "out/f" rfl
      (by rw [string_toLower_data]; decide)).2 (by decide) (by decide) (by decide)⟩

/-- Claim C8 is a code bug: for the algorithm name `"new"` — which names no
hash algorithm, so the documented behaviour (docstring of `verify_checksum`
and the specification) is a `ValueError` — `getattr(hashlib, "new")`
succeeds and the call `hashlib.new()` raises `TypeError: new() missing
required argument 'name'`, an uncaught crash instead of the reported
unsupported-algorithm error. -/
theorem verify_checksum_unsupported_crash :
    ("new" ∈ hashlib_guaranteed_constructors) = False ∧
    ("new" ∈ hashlib_shake_constructors) = False ∧
    verify_checksum sample_fs sample_hexdigest true "d1" "new" "ab12" =
      .error (.typeError "hashlib attribute is not callable without arguments") ∧
    (∀ msg, verify_checksum sample_fs sample_hexdigest true "d1" "new" "ab12" ≠
      .error (.valueError msg)) := by
  have hl : ("new" : String).toLower = "new" := by
    rw [string_toLower_data]
    decide
  have h3 : verify_checksum sample_fs sample_hexdigest true "d1" "new" "ab12" =
      .error (.typeError "hashlib attribute is not callable without arguments") := by
    unfold verify_checksum
    rw [hl]
    rfl
  refine ⟨by simp [hashlib_guaranteed_constructors], by simp [hashlib_shake_constructors],
    h3, ?_⟩
  intro msg h
  rw [h3] at h
  exact absurd h (by simp)

/-! ### Download engine (`src/engine.py`) -/

/-- Combined state of a `DownloadEngine` and the components it drives.  The
per-download dictionaries `_active_downloads`, `_bytes_downloaded`,
`_download_speeds` and `_last_update_time` are the engine's in-memory
counters; `scheduled_tasks` records the ids whose `_download_task` future
was submitted to the pool and `segment_tasks` the submitted per-segment
fetch futures (the observable content of `_futures`). -/
structure EngineState where
  active_downloads : String → Option Bool
  bytes_downloaded : String → Option Int
  download_speeds : String → Option ℚ
  last_update_time : String → Option Nat
  scheduled_tasks : List String
  segment_tasks : List (String × Segment)
  fs : FSState
  meta : MetaState

/-- Translation of `DownloadEngine.start_download`, parameterised by the
outcome `probe` of the `_get_file_size` HEAD request (the external HTTP
transport: `Except.error` for a non-200 response or connection failure,
`Except.ok` carrying the reported content length, zero when the header is
missing or non-positive).  The download id — `uuid.uuid4()` in the source —
is passed in as the fresh identifier `id`.  Steps in source order:
initialise the per-download counters, create the ledger record, prepare the
scratch storage, probe the remote size, store it, and only then submit the
download task to the pool; a probe failure or a non-positive size raises out
of `start_download` after `handle_error` logs it. -/
def start_download (st : EngineState) (id url out : String) (probe : Except String Int)
    (now : Nat) : Except String String × EngineState :=
  let st1 := { st with
    active_downloads := fun s => if s = id then some true else st.active_downloads s,
    bytes_downloaded := fun s => if s = id then some 0 else st.bytes_downloaded s,
    download_speeds := fun s => if s = id then some 0 else st.download_speeds s,
    last_update_time := fun s => if s = id then some now else st.last_update_time s }
  let st2 := { st1 with meta := create_download st1.meta id url out now }
  let st3 := { st2 with fs := prepare_download st2.fs id out }
  match probe with
  | .error e => (.error ("Failed to get file size: " ++ e), st3)
  | .ok size =>
    if size ≤ 0 then (.error "Failed to get file size", st3)
    else
      match update_total_size st3.meta id size now with
      | .error e => (.error e, st3)
      | .ok m4 =>
        (.ok id, { st3 with meta := m4, scheduled_tasks := id :: st3.scheduled_tasks })

/-- Claim C1, amended by the counterexample: when the size probe fails (a
non-200 response, a connection error, or a non-positive content length),
`start_download` raises synchronously and neither the download task nor any
segment task is scheduled — but the scratch directory for the download HAS
already been created, because `prepare_download` runs before the probe. -/
theorem start_download_probe_failure (st : EngineState) (id url out : String) (now : Nat) :
    (∀ e,
      (start_download st id url out (.error e) now).1 =
        .error ("Failed to get file size: " ++ e) ∧
      (start_download st id url out (.error e) now).2.scheduled_tasks = st.scheduled_tasks ∧
      (start_download st id url out (.error e) now).2.segment_tasks = st.segment_tasks ∧
      id ∈ (start_download st id url out (.error e) now).2.fs.scratch_dirs) ∧
    (∀ size : Int, size ≤ 0 →
      (start_download st id url out (.ok size) now).1 = .error "Failed to get file size" ∧
      (start_download st id url out (.ok size) now).2.scheduled_tasks = st.scheduled_tasks ∧
      (start_download st id url out (.ok size) now).2.segment_tasks = st.segment_tasks ∧
      id ∈ (start_download st id url out (.ok size) now).2.fs.scratch_dirs) := by
  constructor
  · intro e
    refine ⟨rfl, rfl, rfl, ?_⟩
    show id ∈ (prepare_download st.fs id out).scratch_dirs
    unfold prepare_download
    dsimp only
    split
    · assumption
    · exact List.mem_cons_self id _
  · intro size hsize
    unfold start_download
    dsimp only
    rw [if_pos hsize]
    refine ⟨rfl, rfl, rfl, ?_⟩
    show id ∈ (prepare_download st.fs id out).scratch_dirs
    unfold prepare_download
    dsimp only
    split
    · assumption
    · exact List.mem_cons_self id _

/-- Engine state before any download is started: every per-download map is
empty and no task was ever submitted. -/
def empty_engine : EngineState :=
  { active_downloads := fun _ => none, bytes_downloaded := fun _ => none,
    download_speeds := fun _ => none, last_update_time := fun _ => none,
    scheduled_tasks := [], segment_tasks := [],
    fs := { scratch_dirs := [], open_segment_files := [], output_paths := fun _ => none },
    meta := fun _ => none }

/-- Counterexample to claim C1 as stated: on a fresh engine, a probe that
fails with HTTP 404 makes `start_download` raise synchronously — yet the
scratch directory for the download exists afterwards, because
`prepare_download` ran before `_get_file_size`.  The claim's conjunct "no
scratch directory for that download is created" is false. -/
theorem start_download_probe_failure_counterexample :
    (start_download empty_engine "d1" "http://example.com/f" "out/f"
        (.error "HTTP 404") 0).1 =
      .error "Failed to get file size: HTTP 404" ∧
    (start_download empty_engine "d1" "http://example.com/f" "out/f"
        (.error "HTTP 404") 0).2.fs.scratch_dirs = ["d1"] := by
  exact ⟨rfl, rfl⟩

/-- Witness for the amended claim C1, at a probe failing with HTTP 404 and a
probe reporting content length 0. -/
theorem start_download_probe_failure_witness :
    (start_download empty_engine "d1" "u" "o" (.ok 0) 3).1 =
      .error "Failed to get file size" ∧
    "d1" ∈ (start_download empty_engine "d1" "u" "o" (.ok 0) 3).2.fs.scratch_dirs ∧
    (start_download empty_engine "d1" "u" "o" (.error "HTTP 404") 3).2.scheduled_tasks =
      empty_engine.scheduled_tasks :=
  ⟨((start_download_probe_failure empty_engine "d1" "u" "o" 3).2 0 (by norm_num)).1,
   ((start_download_probe_failure empty_engine "d1" "u" "o" 3).2 0 (by norm_num)).2.2.2,
   ((start_download_probe_failure empty_engine "d1" "u" "o" 3).1 "HTTP 404").2.1⟩

/-- Removal of a download's in-memory counters, performed by the `finally`
block of `_download_task` (and the corresponding `pop` calls). -/
def pop_counters (st : EngineState) (id : String) : EngineState :=
  { st with
    active_downloads := fun s => if s = id then none else st.active_downloads s,
    download_speeds := fun s => if s = id then none else st.download_speeds s,
    bytes_downloaded := fun s => if s = id then none else st.bytes_downloaded s,
    last_update_time := fun s => if s = id then none else st.last_update_time s }

/-- Cooperative-cancellation flag read at checkpoint `cp`.  The checkpoints
of one `_download_task` run are ordered: one before submitting each segment
(`0 .. n-1`), one before waiting on each submitted future (`n .. 2n-1`), and
one before assembling (`2n`).  `cancel_at = some c` models a
`cancel_download` call whose cleared `_active_downloads` flag is first
observed at checkpoint `c`; `none` means the download is never cancelled.
The flag is monotone: once false it stays false. -/
def active_at (cancel_at : Option Nat) (cp : Nat) : Bool :=
  match cancel_at with
  | none => true
  | some c => decide (cp < c)

/-- Submit loop of `_download_task`: each iteration checks the active flag
(`break` when cleared) and submits one segment fetch future to the pool.
Returns the submitted segments and the next checkpoint index. -/
def submit_loop (cancel_at : Option Nat) : List Segment → Nat → List Segment × Nat
  | [], cp => ([], cp)
  | s :: rest, cp =>
    if active_at cancel_at cp then
      let t := submit_loop cancel_at rest (cp + 1)
      (s :: t.1, t.2)
    else ([], cp)

/-- Wait loop of `_download_task` over the `k` submitted segment futures:
each iteration checks the active flag (`break` when cleared) and calls
`future.result()`, which re-raises the segment's exception if it failed.
`seg_outcome j` is the fetch outcome of segment number `j`. -/
def wait_loop (seg_outcome : Nat → Except String Unit) (cancel_at : Option Nat) :
    Nat → Nat → Nat → Except String Unit × Nat
  | 0, _j, cp => (.ok (), cp)
  | k + 1, j, cp =>
    if active_at cancel_at cp then
      match seg_outcome j with
      | .error e => (.error e, cp + 1)
      | .ok _ => wait_loop seg_outcome cancel_at k (j + 1) (cp + 1)
    else (.ok (), cp)

/-- Translation of `DownloadEngine._download_task`, parameterised by the
probe outcome, the per-segment fetch outcomes, the cancellation point and
the success of the final file move.  Control flow as in the source: re-probe
the size, plan the segments, submit one fetch future per segment (checking
the active flag before each), wait on every submitted future in order
(checking the flag before each wait and re-raising the first failure), and —
if the flag is still set — assemble the file and mark the ledger complete.
The `finally` block always pops the download's in-memory counters. -/
def download_task (st : EngineState) (id out : String) (probe : Except String Int)
    (seg_outcome : Nat → Except String Unit) (cancel_at : Option Nat) (move_ok : Bool)
    (now : Nat) : Except String Unit × EngineState :=
  match probe with
  | .error e => (.error ("Failed to get file size: " ++ e), pop_counters st id)
  | .ok size =>
    if size ≤ 0 then (.error "Failed to get file size", pop_counters st id)
    else
      match create_segments size.toNat (calculate_segment_size size.toNat) with
      | none => (.error "range() arg 3 must not be zero", pop_counters st id)
      | some segs =>
        let sub := submit_loop cancel_at segs 0
        let st1 := { st with
          segment_tasks := st.segment_tasks ++ sub.1.map fun s => (id, s) }
        let w := wait_loop seg_outcome cancel_at sub.1.length 0 sub.2
        match w.1 with
        | .error e => (.error e, pop_counters st1 id)
        | .ok _ =>
          if active_at cancel_at w.2 then
            match assemble_file st1.fs id out move_ok with
            | .error e => (.error e, pop_counters st1 id)
            | .ok fs2 =>
              match mark_complete st1.meta id now with
              | .error e => (.error e, pop_counters { st1 with fs := fs2 } id)
              | .ok m2 => (.ok (), pop_counters { st1 with fs := fs2, meta := m2 } id)
          else (.ok (), pop_counters st1 id)

/-- Translation of `DownloadEngine.get_download_speed`. -/
def get_download_speed (st : EngineState) (id : String) : ℚ :=
  (st.download_speeds id).getD 0

/-- Translation of `DownloadEngine.get_bytes_downloaded`. -/
def get_bytes_downloaded (st : EngineState) (id : String) : Int :=
  (st.bytes_downloaded id).getD 0

theorem active_at_mono (c : Option Nat) {a b : Nat} (hab : a ≤ b)
    (h : active_at c b = true) : active_at c a = true := by
  cases c with
  | none => rfl
  | some n =>
    simp only [active_at, decide_eq_true_eq] at h ⊢
    omega

theorem submit_loop_cp (c : Option Nat) :
    ∀ (segs : List Segment) (cp : Nat),
      (submit_loop c segs cp).2 = cp + (submit_loop c segs cp).1.length := by
  intro segs
  induction segs with
  | nil => intro cp; rfl
  | cons s rest ih =>
    intro cp
    unfold submit_loop
    split
    · dsimp only
      rw [ih (cp + 1)]
      simp only [List.length_cons]
      omega
    · simp

theorem submit_loop_len_le (c : Option Nat) :
    ∀ (segs : List Segment) (cp : Nat),
      (submit_loop c segs cp).1.length ≤ segs.length := by
  intro segs
  induction segs with
  | nil => intro cp; exact le_refl _
  | cons s rest ih =>
    intro cp
    unfold submit_loop
    split
    · dsimp only
      simp only [List.length_cons]
      exact Nat.succ_le_succ (ih (cp + 1))
    · simp

theorem submit_loop_all (c : Option Nat) :
    ∀ (segs : List Segment) (cp : Nat),
      (∀ i, i < segs.length → active_at c (cp + i) = true) →
      (submit_loop c segs cp).1 = segs := by
  intro segs
  induction segs with
  | nil => intro cp _; rfl
  | cons s rest ih =>
    intro cp h
    unfold submit_loop
    rw [if_pos (by simpa using h 0 (by simp))]
    dsimp only
    rw [ih (cp + 1) fun i hi => by
      have := h (i + 1) (by simpa using Nat.succ_lt_succ hi)
      rwa [show cp + (i + 1) = cp + 1 + i by omega] at this]

theorem submit_loop_full_of_active_end (c : Option Nat) :
    ∀ (segs : List Segment) (cp : Nat),
      active_at c ((submit_loop c segs cp).2) = true →
      (submit_loop c segs cp).1 = segs := by
  intro segs
  induction segs with
  | nil => intro cp _; rfl
  | cons s rest ih =>
    intro cp h
    unfold submit_loop at h ⊢
    by_cases hact : active_at c cp = true
    · rw [if_pos hact] at h ⊢
      dsimp only at h ⊢
      rw [ih (cp + 1) h]
    · rw [if_neg hact] at h
      exact absurd h hact

theorem wait_loop_cp_ge (so : Nat → Except String Unit) (c : Option Nat) :
    ∀ (k j cp : Nat), cp ≤ (wait_loop so c k j cp).2 := by
  intro k
  induction k with
  | zero => intro j cp; exact le_refl _
  | succ k ih =>
    intro j cp
    unfold wait_loop
    split
    · cases hop : so j with
      | error e => exact Nat.le_succ cp
      | ok u => exact le_trans (Nat.le_succ cp) (ih (j + 1) (cp + 1))
    · exact le_refl _

theorem wait_loop_cp_le (so : Nat → Except String Unit) (c : Option Nat) :
    ∀ (k j cp : Nat), (wait_loop so c k j cp).2 ≤ cp + k := by
  intro k
  induction k with
  | zero => intro j cp; exact Nat.le_add_right cp 0
  | succ k ih =>
    intro j cp
    unfold wait_loop
    split
    · cases hop : so j with
      | error e =>
        dsimp only
        omega
      | ok u =>
        dsimp only
        have := ih (j + 1) (cp + 1)
        omega
    · dsimp only
      omega

theorem wait_loop_all_ok (so : Nat → Except String Unit) (c : Option Nat) :
    ∀ (k j cp : Nat),
      (∀ i, i < k → active_at c (cp + i) = true) →
      (∀ i, i < k → so (j + i) = .ok ()) →
      wait_loop so c k j cp = (.ok (), cp + k) := by
  intro k
  induction k with
  | zero => intro j cp _ _; rfl
  | succ k ih =>
    intro j cp hact hok
    unfold wait_loop
    rw [if_pos (by simpa using hact 0 (by simp))]
    rw [show so j = .ok () by simpa using hok 0 (by simp)]
    rw [ih (j + 1) (cp + 1)
      (fun i hi => by
        have := hact (i + 1) (by omega)
        rwa [show cp + (i + 1) = cp + 1 + i by omega] at this)
      (fun i hi => by
        have := hok (i + 1) (by omega)
        rwa [show j + (i + 1) = j + 1 + i by omega] at this)]
    rw [show cp + 1 + k = cp + (k + 1) by omega]

theorem wait_loop_ok_active (so : Nat → Except String Unit) (c : Option Nat) :
    ∀ (k j cp : Nat),
      (wait_loop so c k j cp).1 = .ok () →
      active_at c ((wait_loop so c k j cp).2) = true →
      (∀ i, i < k → so (j + i) = .ok ()) ∧ (wait_loop so c k j cp).2 = cp + k := by
  intro k
  induction k with
  | zero =>
    intro j cp _ _
    exact ⟨fun i hi => absurd hi (by omega), rfl⟩
  | succ k ih =>
    intro j cp h1 h2
    unfold wait_loop at h1 h2 ⊢
    by_cases hact : active_at c cp = true
    · rw [if_pos hact] at h1 h2 ⊢
      cases hop : so j with
      | error e =>
        simp only [hop] at h1
        exact absurd h1 (by simp)
      | ok u =>
        cases u
        simp only [hop] at h1 h2 ⊢
        obtain ⟨ha, hb⟩ := ih (j + 1) (cp + 1) h1 h2
        refine ⟨?_, by omega⟩
        intro i hi
        cases i with
        | zero => simpa using hop
        | succ i =>
          have := ha i (by omega)
          rwa [show j + 1 + i = j + (i + 1) by omega] at this
    · rw [if_neg hact] at h2
      exact absurd h2 hact

theorem assemble_file_true (fs : FSState) (id out : String) :
    assemble_file fs id out true = .ok
      { scratch_dirs := fs.scratch_dirs.erase id,
        open_segment_files := fs.open_segment_files.erase id,
        output_paths := fun s => if s = id then some out else fs.output_paths s } := rfl

theorem download_task_unfold_ok (st : EngineState) (id out : String) (size : Int)
    (so : Nat → Except String Unit) (ca : Option Nat) (mo : Bool) (now : Nat)
    (segs : List Segment) (hsize : 0 < size)
    (hplan : create_segments size.toNat (calculate_segment_size size.toNat) = some segs) :
    download_task st id out (.ok size) so ca mo now =
      (let sub := submit_loop ca segs 0
       let st1 : EngineState := { st with
         segment_tasks := st.segment_tasks ++ sub.1.map fun s => (id, s) }
       let w := wait_loop so ca sub.1.length 0 sub.2
       match w.1 with
       | .error e => (.error e, pop_counters st1 id)
       | .ok _ =>
         if active_at ca w.2 then
           match assemble_file st1.fs id out mo with
           | .error e => (.error e, pop_counters st1 id)
           | .ok fs2 =>
             match mark_complete st1.meta id now with
             | .error e => (.error e, pop_counters { st1 with fs := fs2 } id)
             | .ok m2 => (.ok (), pop_counters { st1 with fs := fs2, meta := m2 } id)
         else (.ok (), pop_counters st1 id)) := by
  unfold download_task
  dsimp only
  rw [if_neg (by omega), hplan]

/-- Dichotomy behind claim C2: a `_download_task` run over a successfully
probed size either leaves the ledger record untouched (segment failure,
cancellation, or finalize failure — and then the completion conditions do
not all hold), or the run completed: the download was never cancelled before
the finalize checkpoint, every segment succeeded, the move succeeded, and
the record's status was set to `"complete"`. -/
theorem download_task_meta_cases (st : EngineState) (id out : String) (size : Int)
    (so : Nat → Except String Unit) (ca : Option Nat) (mo : Bool) (now : Nat)
    (r : LedgerRecord) (segs : List Segment)
    (hm : st.meta id = some r) (hsize : 0 < size)
    (hplan : create_segments size.toNat (calculate_segment_size size.toNat) = some segs) :
    ((download_task st id out (.ok size) so ca mo now).2.meta = st.meta ∧
      ¬(active_at ca (2 * segs.length) = true ∧
        (∀ j, j < segs.length → so j = .ok ()) ∧ mo = true)) ∨
    (active_at ca (2 * segs.length) = true ∧
      (∀ j, j < segs.length → so j = .ok ()) ∧ mo = true ∧
      (download_task st id out (.ok size) so ca mo now).2.meta id =
        some { r with status := "complete", last_updated := now }) := by
  rw [download_task_unfold_ok st id out size so ca mo now segs hsize hplan]
  dsimp only
  cases hw1 : (wait_loop so ca (submit_loop ca segs 0).1.length 0 (submit_loop ca segs 0).2).1 with
  | error e =>
    left
    refine ⟨rfl, ?_⟩
    rintro ⟨hact2n, hallok, _⟩
    have hsubfull : (submit_loop ca segs 0).1 = segs :=
      submit_loop_all ca segs 0 fun i hi => active_at_mono ca (by omega) hact2n
    have hsub2 : (submit_loop ca segs 0).2 = segs.length := by
      rw [submit_loop_cp, hsubfull]
      omega
    have hwred : wait_loop so ca (submit_loop ca segs 0).1.length 0 (submit_loop ca segs 0).2 =
        (.ok (), segs.length + segs.length) := by
      rw [hsubfull, hsub2]
      exact wait_loop_all_ok so ca segs.length 0 segs.length
        (fun i hi => active_at_mono ca (by omega) hact2n)
        (fun i hi => by simpa using hallok i hi)
    rw [hwred] at hw1
    exact absurd hw1 (by simp)
  | ok u =>
    cases u
    dsimp only
    by_cases hact : active_at ca
        ((wait_loop so ca (submit_loop ca segs 0).1.length 0 (submit_loop ca segs 0).2).2) = true
    · rw [if_pos hact]
      have hsubfull : (submit_loop ca segs 0).1 = segs :=
        submit_loop_full_of_active_end ca segs 0
          (active_at_mono ca (wait_loop_cp_ge so ca _ 0 _) hact)
      have hsub2 : (submit_loop ca segs 0).2 = segs.length := by
        rw [submit_loop_cp, hsubfull]
        omega
      obtain ⟨hallok0, hcp2⟩ := wait_loop_ok_active so ca
        (submit_loop ca segs 0).1.length 0 (submit_loop ca segs 0).2 hw1 hact
      have hallok : ∀ j, j < segs.length → so j = .ok () := by
        intro j hj
        have := hallok0 j (by rw [hsubfull]; exact hj)
        simpa using this
      have hcp2n : (wait_loop so ca (submit_loop ca segs 0).1.length 0
          (submit_loop ca segs 0).2).2 = 2 * segs.length := by
        rw [hcp2, hsub2, hsubfull]
        omega
      have hact2n : active_at ca (2 * segs.length) = true := by
        rw [← hcp2n]
        exact hact
      cases mo with
      | false =>
        left
        refine ⟨?_, ?_⟩
        · rfl
        · rintro ⟨_, _, hmo⟩
          exact absurd hmo (by simp)
      | true =>
        right
        refine ⟨hact2n, hallok, rfl, ?_⟩
        rw [assemble_file_true]
        dsimp only
        unfold mark_complete get_metadata
        rw [show ({ st with segment_tasks :=
            st.segment_tasks ++ (submit_loop ca segs 0).1.map fun s => (id, s) :
              EngineState}).meta id = some r from hm]
        simp [pop_counters]
    · rw [if_neg hact]
      left
      refine ⟨rfl, ?_⟩
      rintro ⟨hact2n, _, _⟩
      have hle : (wait_loop so ca (submit_loop ca segs 0).1.length 0
          (submit_loop ca segs 0).2).2 ≤ 2 * segs.length := by
        have h1 := wait_loop_cp_le so ca (submit_loop ca segs 0).1.length 0
          (submit_loop ca segs 0).2
        have h2 := submit_loop_cp ca segs 0
        have h3 := submit_loop_len_le ca segs 0
        omega
      exact hact (active_at_mono ca hle hact2n)

/-- Claim C2, amended by the counterexample: the ledger defines no terminal
Failed or Cancelled status at all.  On a run of `_download_task` over a
successfully probed size, the persisted status afterwards is either
`"complete"` or the unchanged initial `"initializing"`; it is `"complete"`
exactly when the download was not cancelled before the finalize checkpoint,
every segment fetch succeeded, and the final file move succeeded — on any
segment failure or mid-flight cancellation it simply stays
`"initializing"`, which is distinct from `"complete"` (so `is_complete`
stays false), but no Failed/Cancelled marker is ever written. -/
theorem download_task_status (st : EngineState) (id out : String) (size : Int)
    (so : Nat → Except String Unit) (ca : Option Nat) (mo : Bool) (now : Nat)
    (r : LedgerRecord) (segs : List Segment)
    (hm : st.meta id = some r) (hst : r.status = "initializing") (hsize : 0 < size)
    (hplan : create_segments size.toNat (calculate_segment_size size.toNat) = some segs) :
    (((download_task st id out (.ok size) so ca mo now).2.meta id).map LedgerRecord.status =
        some "complete" ∨
      ((download_task st id out (.ok size) so ca mo now).2.meta id).map LedgerRecord.status =
        some "initializing") ∧
    (((download_task st id out (.ok size) so ca mo now).2.meta id).map LedgerRecord.status =
        some "complete" ↔
      (active_at ca (2 * segs.length) = true ∧
        (∀ j, j < segs.length → so j = .ok ()) ∧ mo = true)) := by
  rcases download_task_meta_cases st id out size so ca mo now r segs hm hsize hplan with
    ⟨hmeta, hnot⟩ | ⟨h1, h2, h3, hmeta⟩
  · constructor
    · right
      rw [hmeta, hm]
      show some r.status = some "initializing"
      rw [hst]
    · constructor
      · intro hcomp
        rw [hmeta, hm] at hcomp
        have hcomp2 : some r.status = some "complete" := hcomp
        rw [hst] at hcomp2
        exact absurd (Option.some.inj hcomp2) (by decide)
      · intro h
        exact absurd h hnot
  · constructor
    · left
      rw [hmeta]
      rfl
    · constructor
      · intro _
        exact ⟨h1, h2, h3⟩
      · intro _
        rw [hmeta]
        rfl

/-- Engine whose metadata cache holds the fresh record `fresh_record_three`
under id `"d1"`, used by the C2 counterexample and witness. -/
def cx_engine : EngineState :=
  { empty_engine with meta := fun s => if s = "d1" then some fresh_record_three else none }

/-- Counterexample to claim C2 as stated: a download whose only segment
fetch fails ends with the error propagated, yet the persisted ledger status
is still the initial `"initializing"` — the code never sets any terminal
Failed (or Cancelled) status; `metadata.py` only ever writes
`"initializing"` and `"complete"`. -/
theorem download_task_status_counterexample :
    (download_task cx_engine "d1" "out/f" (.ok 3) (fun _ => .error "HTTP 500") none true 9).1 =
      .error "HTTP 500" ∧
    ((download_task cx_engine "d1" "out/f" (.ok 3) (fun _ => .error "HTTP 500") none true
        9).2.meta "d1").map LedgerRecord.status = some "initializing" ∧
    "initializing" ≠ "complete" ∧ "initializing" ≠ "failed" ∧ "initializing" ≠ "cancelled" := by
  refine ⟨rfl, rfl, by decide, by decide, by decide⟩

/-- Witness for the amended claim C2: a fully successful run marks the
ledger record complete. -/
theorem download_task_status_witness :
    ((download_task cx_engine "d1" "out/f" (.ok 3) (fun _ => .ok ()) none true 9).2.meta
      "d1").map LedgerRecord.status = some "complete" :=
  (download_task_status cx_engine "d1" "out/f" 3 (fun _ => .ok ()) none true 9
    fresh_record_three [{ start := 0, stop := 2 }] rfl rfl (by norm_num) rfl).2.mpr
    ⟨rfl, fun j _ => rfl, rfl⟩

theorem download_task_result_state (st : EngineState) (id out : String)
    (probe : Except String Int) (so : Nat → Except String Unit) (ca : Option Nat)
    (mo : Bool) (now : Nat) :
    ∃ st2, (download_task st id out probe so ca mo now).2 = pop_counters st2 id := by
  unfold download_task
  cases probe with
  | error e => exact ⟨st, rfl⟩
  | ok size =>
    dsimp only
    split
    · exact ⟨st, rfl⟩
    · cases hcs : create_segments size.toNat (calculate_segment_size size.toNat) with
      | none => exact ⟨st, rfl⟩
      | some segs =>
        dsimp only
        cases hw1 : (wait_loop so ca (submit_loop ca segs 0).1.length 0
            (submit_loop ca segs 0).2).1 with
        | error e => exact ⟨_, rfl⟩
        | ok u =>
          cases u
          dsimp only
          by_cases hact : active_at ca
              ((wait_loop so ca (submit_loop ca segs 0).1.length 0
                (submit_loop ca segs 0).2).2) = true
          · rw [if_pos hact]
            cases hasm : assemble_file ({ st with segment_tasks :=
                st.segment_tasks ++ (submit_loop ca segs 0).1.map fun s => (id, s) :
                  EngineState}).fs id out mo with
            | error e => exact ⟨_, rfl⟩
            | ok fs2 =>
              cases hmc : mark_complete ({ st with segment_tasks :=
                  st.segment_tasks ++ (submit_loop ca segs 0).1.map fun s => (id, s) :
                    EngineState}).meta id now with
              | error e => exact ⟨_, rfl⟩
              | ok m2 => exact ⟨_, rfl⟩
          · rw [if_neg hact]
            exact ⟨_, rfl⟩

/-- Claim C10: `get_bytes_downloaded` and `get_download_speed` return 0 for
every id without in-memory counters — ids never started, and ids whose
download task already finished in any way, since the task's `finally` block
pops the counters — instead of raising; in particular any finished
`_download_task` run (completed, failed, or cancelled) leaves both queries
returning 0 for its id. -/
theorem engine_counters_default_zero :
    (∀ (st : EngineState) (id : String), st.bytes_downloaded id = none →
      get_bytes_downloaded st id = 0) ∧
    (∀ (st : EngineState) (id : String), st.download_speeds id = none →
      get_download_speed st id = 0) ∧
    (∀ (st : EngineState) (id out : String) (probe : Except String Int)
        (so : Nat → Except String Unit) (ca : Option Nat) (mo : Bool) (now : Nat),
      get_bytes_downloaded (download_task st id out probe so ca mo now).2 id = 0 ∧
      get_download_speed (download_task st id out probe so ca mo now).2 id = 0) := by
  refine ⟨?_, ?_, ?_⟩
  · intro st id h
    unfold get_bytes_downloaded
    rw [h]
    rfl
  · intro st id h
    unfold get_download_speed
    rw [h]
    rfl
  · intro st id out probe so ca mo now
    obtain ⟨st2, h2⟩ := download_task_result_state st id out probe so ca mo now
    rw [h2]
    constructor
    · unfold get_bytes_downloaded pop_counters
      simp
    · unfold get_download_speed pop_counters
      simp

/-- Witness for claim C10: a never-started id reports 0 bytes and 0 speed,
and so does the id of a successfully completed download task after its
cleanup ran. -/
theorem engine_counters_default_zero_witness :
    get_bytes_downloaded empty_engine "d1" = 0 ∧
    get_download_speed empty_engine "d1" = 0 ∧
    get_bytes_downloaded
      (download_task cx_engine "d1" "out/f" (.ok 3) (fun _ => .ok ()) none true 9).2 "d1" = 0 ∧
    get_download_speed
      (download_task cx_engine "d1" "out/f" (.ok 3) (fun _ => .ok ()) none true 9).2 "d1" = 0 :=
  ⟨engine_counters_default_zero.1 empty_engine "d1" rfl,
   engine_counters_default_zero.2.1 empty_engine "d1" rfl,
   (engine_counters_default_zero.2.2 cx_engine "d1" "out/f" (.ok 3) (fun _ => .ok ())
     none true 9).1,
   (engine_counters_default_zero.2.2 cx_engine "d1" "out/f" (.ok 3) (fun _ => .ok ())
     none true 9).2⟩

end CurlyDL
